import Mathlib

/-!
Verification development for the India-Indicators dashboard engine
(`src/app.py`).  The metrics/series-transformation functions and the
data-access layer are shallowly embedded below:

* a pandas `DataFrame` of observations is a `List Row`;
* a missing value (`NaN` after `pd.to_numeric(..., errors="coerce")`, or
  Python `None`) is `Option.none`;
* float arithmetic is embedded as exact rational arithmetic `ℚ`
  (note: `math.isclose(x, 0.0)` with the default `rel_tol=1e-9`,
  `abs_tol=0.0` holds iff `x == 0.0`, so the zero guards embed as `= 0`);
* the real-valued power in the CAGR formula is `Real.rpow`;
* `df.dropna(subset=[c]).sort_values(c)` is filter-then-stable-sort
  (`List.insertionSort`);
* the network is an injected response function, and `time.sleep` calls are
  logged rather than performed.
-/

/-- One observation row of the normalized World Bank table
(`country`, `iso3`, `indicator`, `date`, `value` columns produced by
`wb_fetch_series`).  `date` is the year; `value` is `none` for a missing
data point. -/
structure Row where
  country : String
  iso3 : String
  indicator : String
  date : ℤ
  value : Option ℚ
deriving DecidableEq, Repr, Inhabited

/-- Order on rows by the `date` column, as used by `sort_values("date")`. -/
def dateLE (a b : Row) : Prop := a.date ≤ b.date

instance : DecidableRel dateLE := fun a b => inferInstanceAs (Decidable (a.date ≤ b.date))

instance : IsTotal Row dateLE := ⟨fun a b => le_total a.date b.date⟩

instance : IsTrans Row dateLE := ⟨fun _ _ _ h h' => le_trans h h'⟩

/-- Strict version of `dateLE`; used to reason about tables whose valid rows
have pairwise distinct years. -/
def dateLT (a b : Row) : Prop := a.date < b.date

instance : DecidableRel dateLT := fun a b => inferInstanceAs (Decidable (a.date < b.date))

instance : IsAntisymm Row dateLT := ⟨fun _ _ h h' => absurd (h.trans h') (lt_irrefl _)⟩

/-- `df.dropna(subset=["value"]).sort_values("date")`: the recurring
prologue of `latest_non_null`, `yoy_change`, `cagr_from_last_n_years` and
`extend_forecast` in `src/app.py`. -/
def cleanSeries (df : List Row) : List Row :=
  List.insertionSort dateLE (df.filter fun r => r.value.isSome)

/-- `latest_non_null` (src/app.py lines 120-122): the last row of the
cleaned series, or `none` if there is no valid row. -/
def latest_non_null (df : List Row) : Option Row :=
  (cleanSeries df).getLast?

/-- `yoy_change` (src/app.py lines 124-131). -/
def yoy_change (df : List Row) : Option ℚ :=
  let clean := cleanSeries df
  if clean.length < 2 then none
  else
    let last := (clean.getLastD default).value.getD 0
    let prev := (clean.getD (clean.length - 2) default).value.getD 0
    if prev = 0 then none
    else some ((last - prev) / prev * 100)

/-- The calendar window selected by `cagr_from_last_n_years`
(src/app.py lines 137-139): rows of the cleaned series whose year lies in
`[last_year - n, last_year]` where `last_year` is the year of the most
recent valid row; empty when the cleaned series is empty. -/
def cagrWindow (df : List Row) (n : ℤ) : List Row :=
  match (cleanSeries df).getLast? with
  | none => []
  | some lastR =>
      (cleanSeries df).filter fun r =>
        decide (lastR.date - n ≤ r.date) && decide (r.date ≤ lastR.date)

/-- `cagr_from_last_n_years` (src/app.py lines 133-147).  The final
formula `(end_val / start_val) ** (1.0 / years) - 1.0` is embedded with
`Real.rpow`. -/
noncomputable def cagr_from_last_n_years (df : List Row) (n : ℤ) : Option ℝ :=
  let window := cagrWindow df n
  if window.length < 2 then none
  else
    let start_val := window.headI.value.getD 0
    let end_val := (window.getLastD default).value.getD 0
    let years := (window.getLastD default).date - window.headI.date
    if years ≤ 0 ∨ start_val = 0 then none
    else some (((end_val : ℝ) / (start_val : ℝ)) ^ ((1 : ℝ) / (years : ℝ)) - 1)

/-- Round a rational to the nearest integer, ties to even: the rounding
used by Python `format(x, ".2f")`/`format(x, ",.0f")` (exact-value
semantics). -/
def roundHalfEven (q : ℚ) : ℤ :=
  let f : ℤ := ⌊q⌋
  let frac := q - f
  if frac < 1/2 then f
  else if 1/2 < frac then f + 1
  else if f % 2 = 0 then f else f + 1

/-- Left-pad a digit string with zeros to the given length. -/
def padZeros (s : String) (len : ℕ) : String :=
  String.mk (List.replicate (len - s.length) '0') ++ s

/-- Python `f"{q:.{prec}f}"` on an exact rational. -/
def formatFixed (q : ℚ) (prec : ℕ) : String :=
  (if q < 0 then "-" else "") ++
    (let n := (roundHalfEven (|q| * 10 ^ prec)).toNat
     let ip := n / 10 ^ prec
     let fp := n % 10 ^ prec
     if prec = 0 then toString ip
     else toString ip ++ "." ++ padZeros (toString fp) prec)

/-- Insert a comma after every third character of a reversed digit list. -/
def commaRev : List Char → List Char
  | a :: b :: c :: d :: rest => a :: b :: c :: ',' :: commaRev (d :: rest)
  | l => l

/-- Decimal rendering of a natural number with thousands separators. -/
def withCommas (n : ℕ) : String :=
  String.mk ((commaRev (toString n).toList.reverse).reverse)

/-- Python `f"{q:,.0f}"` on an exact rational. -/
def pyFormatCommas (q : ℚ) : String :=
  (if q < 0 then "-" else "") ++ withCommas (roundHalfEven |q|).toNat

/-- `format_val` (src/app.py lines 149-160).  `none` stands for both
Python `None` and float NaN (line 150 treats them identically).  The
final fallback `f"{val}"` (line 160, reachable only for units outside
the app's indicator table) is rendered as the rational's `toString`. -/
def format_val (val : Option ℚ) (unit : String) : String :=
  match val with
  | none => "—"
  | some v =>
      if unit = "US$" ∨ unit = "" then
        let absval := |v|
        let sign := if v < 0 then "-" else ""
        if 10 ^ 12 ≤ absval then sign ++ formatFixed (absval / 10 ^ 12) 2 ++ "T"
        else if 10 ^ 9 ≤ absval then sign ++ formatFixed (absval / 10 ^ 9) 2 ++ "B"
        else if 10 ^ 6 ≤ absval then sign ++ formatFixed (absval / 10 ^ 6) 2 ++ "M"
        else pyFormatCommas v
      else if unit = "%" ∨ unit = "yrs" ∨ unit = "t" then formatFixed v 2
      else toString v

/-- The row-building loop of `extend_forecast` (src/app.py lines 186-191):
`for i in range(1, years_ahead + 1)`, compounding the running value by
`(1 + cagr)` and incrementing the year, copying the categorical columns
from the last valid row `tmpl`. -/
def loopRows (tmpl : Row) (c : ℚ) : ℤ → ℚ → ℕ → List Row
  | _, _, 0 => []
  | y, v, Nat.succ k =>
      let v2 := v * (1 + c)
      { tmpl with date := y + 1, value := some v2 } :: loopRows tmpl c (y + 1) v2 k

/-- `extend_forecast` (src/app.py lines 178-192). -/
def extend_forecast (df : List Row) (years_ahead : ℕ) (cagr : Option ℚ) : List Row :=
  match cagr with
  | none => df
  | some c =>
      if df.isEmpty then df
      else
        let clean := cleanSeries df
        if clean.isEmpty then df
        else
          let lastR := clean.getLastD default
          let add := loopRows lastR c lastR.date (lastR.value.getD 0) years_ahead
          if add.isEmpty then clean else clean ++ add

/-- pandas `Series.median()` on an exact-rational list: sort, then take the
middle element (odd length) or the mean of the two middle elements (even
length). -/
def medianQ (l : List ℚ) : ℚ :=
  let s := List.insertionSort (· ≤ ·) l
  if s.length % 2 = 1 then s.getD (s.length / 2) 0
  else (s.getD (s.length / 2 - 1) 0 + s.getD (s.length / 2) 0) / 2

/-- A row of the frame returned by `peer_median_series`
(`med[["country", "date", "value"]]`, src/app.py line 201). -/
structure MedRow where
  country : String
  date : ℤ
  value : ℚ
deriving DecidableEq, Repr

/-- `peer_median_series` (src/app.py lines 194-201).  pandas
`groupby("date")` sorts the group keys ascending; `.median()` of each
group is order-independent, embedded via `medianQ`. -/
def peer_median_series (df : List Row) : Option (List MedRow) :=
  let clean := df.filter fun r => r.value.isSome
  if clean.isEmpty then none
  else
    let years := List.insertionSort (· ≤ ·) (clean.map Row.date).dedup
    some (years.map fun y =>
      ⟨"Peer median", y,
        medianQ ((clean.filter fun r => decide (r.date = y)).map fun r => r.value.getD 0)⟩)

/-- The failure kind of the data-access layer: a network/HTTP error that
survives the retry budget (spec section 7).  In `src/app.py` this is the
final `raise last_exc` of `_safe_request` (line 77). -/
structure DataSourceError where
  message : String
deriving DecidableEq, Repr

/-- Observable log of one `_safe_request` run: the outcome (the error slot
is `Option`al because the initial `last_exc` is Python `None`), the
indices of the attempts actually made, and the durations passed to
`time.sleep`. -/
structure RunLog (α : Type) where
  result : Except (Option DataSourceError) α
  attempted : List ℕ
  sleeps : List ℚ

/-- The `for i in range(retries)` loop of `_safe_request`
(src/app.py lines 69-76), with the HTTP call injected as `call`:
on success return, on failure record the attempt and the
`backoff * (2 ** i)` sleep, remember the exception, and continue. -/
def safe_request_go (call : ℕ → Except DataSourceError α) (backoff : ℚ) :
    ℕ → Option DataSourceError → ℕ → RunLog α
  | _, last, 0 => ⟨.error last, [], []⟩
  | i, _, Nat.succ fuel =>
      match call i with
      | .ok a => ⟨.ok a, [i], []⟩
      | .error e =>
          let rest := safe_request_go call backoff (i + 1) (some e) fuel
          ⟨rest.result, i :: rest.attempted, backoff * 2 ^ i :: rest.sleeps⟩

/-- `_safe_request` (src/app.py lines 67-77); the defaults at every call
site are `retries = 3`, `backoff = 0.6`. -/
def safe_request (call : ℕ → Except DataSourceError α) (retries : ℕ) (backoff : ℚ) :
    RunLog α :=
  safe_request_go call backoff 0 none retries

/-- A raw World Bank API row as it stands after `pd.json_normalize` and
the two `pd.to_numeric(..., errors="coerce")` casts of `wb_fetch_series`:
`date` is `none` when the raw date does not parse as a number, `value` is
`none` for `null`/unparseable values. -/
structure RawRow where
  country : String
  iso3 : String
  indicator : String
  date : Option ℤ
  value : Option ℚ
deriving DecidableEq, Repr, Inhabited

/-- The normalization tail of `wb_fetch_series` (src/app.py lines 98-110):
drop rows whose date did not parse, sort ascending by date, and project
the five output columns. -/
def normalize_rows (out : List RawRow) : List Row :=
  List.insertionSort dateLE
    (out.filterMap fun r => r.date.map fun d => ⟨r.country, r.iso3, r.indicator, d, r.value⟩)

/-- The pagination loop of `wb_fetch_series` (src/app.py lines 84-95),
with the network injected as `respond : page ↦ parsed JSON envelope`.
`respond page = .ok none` models a response that is not a list of at
least two elements (the `break` on line 89-90); `.ok (some (pages, rows))`
models the `[metadata, rows]` envelope with `meta.get("pages", 1) = pages`.
`fuel` bounds the number of loop iterations; exhaustion yields `.ok none`
(the Python loop would still be running). -/
def wb_fetch_series_go (respond : ℕ → Except DataSourceError (Option (ℕ × List RawRow))) :
    ℕ → ℕ → List RawRow → Except DataSourceError (Option (List RawRow))
  | 0, _, _ => .ok none
  | Nat.succ fuel, page, out =>
      match respond page with
      | .error e => .error e
      | .ok none => .ok (some out)
      | .ok (some (pages, rows)) =>
          let out2 := out ++ rows
          if pages ≤ page then .ok (some out2)
          else wb_fetch_series_go respond fuel (page + 1) out2

/-- `wb_fetch_series` (src/app.py lines 80-110): run the pagination loop
from page 1, then either return the empty frame (line 96-97) or normalize.
The outer `Except` is a fetch failure (`DataSourceError`); the inner
`Option` is `none` only on fuel exhaustion. -/
def wb_fetch_series (respond : ℕ → Except DataSourceError (Option (ℕ × List RawRow)))
    (fuel : ℕ) : Except DataSourceError (Option (List Row)) :=
  (wb_fetch_series_go respond fuel 1 []).map fun o =>
    o.map fun out => if out.isEmpty then [] else normalize_rows out

/-- `wb_fetch_multi` (src/app.py lines 112-115), with the per-country
fetch (`wb_fetch_series c indicator_code`) injected as `fetch`:
one fetch per element of `countries`, concatenated in order.
(`pd.concat(frames)` when `frames` is non-empty, the empty frame
otherwise — both are the concatenation.) -/
def wb_fetch_multi (fetch : String → List Row) (countries : List String) : List Row :=
  (countries.map fetch).flatten

/-- The caller-side deduplication loop over the selected country codes
(src/app.py lines 350-354): keep the first occurrence of each code,
given the set `seen` of codes already kept. -/
def dedup_codes_go : List String → List String → List String
  | _, [] => []
  | seen, c :: rest =>
      if c ∈ seen then dedup_codes_go seen rest
      else c :: dedup_codes_go (c :: seen) rest

/-- First-occurrence deduplication of the country list, as performed by
the caller of `wb_fetch_multi` (src/app.py lines 350-354). -/
def dedup_codes (cs : List String) : List String := dedup_codes_go [] cs

/-! ### Helper lemmas -/

theorem getLast?_eq_getLastD {α : Type} [Inhabited α] (l : List α) (h : l ≠ []) :
    l.getLast? = some (l.getLastD default) := by
  cases hl : l.getLast? with
  | none => exact absurd (List.getLast?_eq_none_iff.mp hl) h
  | some a => rw [List.getLastD_eq_getLast?, hl]; rfl

theorem getLastD_irrel {α : Type} [Inhabited α] {l : List α} (h : l ≠ []) (d : α) :
    l.getLastD d = l.getLastD default := by
  rw [List.getLastD_eq_getLast?, List.getLastD_eq_getLast?, getLast?_eq_getLastD l h]
  rfl

theorem getD_length_sub_one {α : Type} [Inhabited α] :
    ∀ (l : List α), l ≠ [] → l.getD (l.length - 1) default = l.getLastD default
  | [], h => absurd rfl h
  | [a], _ => rfl
  | a :: b :: t, _ => by
      have ih := getD_length_sub_one (b :: t) (by simp)
      have hlen : (a :: b :: t).length - 1 = ((b :: t).length - 1) + 1 := by
        simp [List.length_cons]
      calc (a :: b :: t).getD ((a :: b :: t).length - 1) default
          = (b :: t).getD ((b :: t).length - 1) default := by
            rw [hlen, List.getD_cons_succ]
        _ = (b :: t).getLastD default := ih
        _ = (b :: t).getLastD a := (getLastD_irrel (by simp : b :: t ≠ ([] : List α)) a).symm
        _ = (a :: b :: t).getLastD default := (List.getLastD_cons default a (b :: t)).symm

theorem insertionSortQ_eq_of_perm {l₁ l₂ : List ℚ} (h : l₁.Perm l₂) :
    List.insertionSort (· ≤ ·) l₁ = List.insertionSort (· ≤ ·) l₂ :=
  List.eq_of_perm_of_sorted
    (((List.perm_insertionSort _ l₁).trans h).trans (List.perm_insertionSort _ l₂).symm)
    (List.sorted_insertionSort _ l₁) (List.sorted_insertionSort _ l₂)

theorem insertionSortZ_eq_of_perm {l₁ l₂ : List ℤ} (h : l₁.Perm l₂) :
    List.insertionSort (· ≤ ·) l₁ = List.insertionSort (· ≤ ·) l₂ :=
  List.eq_of_perm_of_sorted
    (((List.perm_insertionSort _ l₁).trans h).trans (List.perm_insertionSort _ l₂).symm)
    (List.sorted_insertionSort _ l₁) (List.sorted_insertionSort _ l₂)

theorem medianQ_perm {l₁ l₂ : List ℚ} (h : l₁.Perm l₂) : medianQ l₁ = medianQ l₂ := by
  unfold medianQ
  rw [insertionSortQ_eq_of_perm h]

theorem cleanSeries_perm {df₁ df₂ : List Row} (h : df₁.Perm df₂) :
    (cleanSeries df₁).Perm (cleanSeries df₂) :=
  ((List.perm_insertionSort _ _).trans (h.filter _)).trans (List.perm_insertionSort _ _).symm

theorem cleanSeries_sorted (df : List Row) : List.Sorted dateLE (cleanSeries df) :=
  List.sorted_insertionSort _ _

theorem sorted_dateLT_of_nodup {l : List Row} (hs : List.Sorted dateLE l)
    (hn : (l.map Row.date).Nodup) : List.Sorted dateLT l := by
  have hp : l.Pairwise fun a b => a.date ≠ b.date := by
    rw [List.Nodup, List.pairwise_map] at hn
    exact hn
  exact (hs.and hp).imp fun hab => lt_of_le_of_ne hab.1 hab.2

theorem cleanSeries_eq_of_perm {df₁ df₂ : List Row} (h : df₁.Perm df₂)
    (hn : ((df₁.filter fun r => r.value.isSome).map Row.date).Nodup) :
    cleanSeries df₁ = cleanSeries df₂ := by
  have hperm : (cleanSeries df₁).Perm (cleanSeries df₂) := cleanSeries_perm h
  have hn₁ : ((cleanSeries df₁).map Row.date).Nodup :=
    ((List.perm_insertionSort _ _).map Row.date).nodup_iff.mpr hn
  have hn₂ : ((cleanSeries df₂).map Row.date).Nodup :=
    (hperm.map Row.date).nodup_iff.mp hn₁
  exact List.eq_of_perm_of_sorted hperm
    (sorted_dateLT_of_nodup (cleanSeries_sorted df₁) hn₁)
    (sorted_dateLT_of_nodup (cleanSeries_sorted df₂) hn₂)

theorem loopRows_length (tmpl : Row) (c : ℚ) :
    ∀ (k : ℕ) (y : ℤ) (v : ℚ), (loopRows tmpl c y v k).length = k
  | 0, _, _ => rfl
  | Nat.succ k, y, v => by
      simp only [loopRows, List.length_cons, loopRows_length tmpl c k]

theorem loopRows_getD (tmpl : Row) (c : ℚ) :
    ∀ (k : ℕ) (y : ℤ) (v : ℚ) (i : ℕ), i < k →
      (loopRows tmpl c y v k).getD i default =
        { tmpl with date := y + (i + 1 : ℕ), value := some (v * (1 + c) ^ (i + 1)) }
  | 0, _, _, _, hi => absurd hi (Nat.not_lt_zero _)
  | Nat.succ k, y, v, 0, _ => by
      simp only [loopRows, List.getD_cons_zero, pow_one]
      norm_num
  | Nat.succ k, y, v, Nat.succ i, hi => by
      have ih := loopRows_getD tmpl c k (y + 1) (v * (1 + c)) i (Nat.lt_of_succ_lt_succ hi)
      simp only [loopRows, List.getD_cons_succ, ih]
      congr 1
      · push_cast; ring
      · rw [mul_assoc, ← pow_succ']

theorem dedup_codes_go_sublist : ∀ (seen cs : List String), (dedup_codes_go seen cs).Sublist cs
  | _, [] => List.Sublist.refl _
  | seen, c :: rest => by
      by_cases h : c ∈ seen
      · simp only [dedup_codes_go, if_pos h]
        exact (dedup_codes_go_sublist seen rest).cons c
      · simp only [dedup_codes_go, if_neg h]
        exact (dedup_codes_go_sublist (c :: seen) rest).cons₂ c

theorem dedup_codes_go_mem :
    ∀ (seen cs : List String) (c : String),
      c ∈ dedup_codes_go seen cs ↔ c ∈ cs ∧ c ∉ seen
  | _, [], c => by simp [dedup_codes_go]
  | seen, d :: rest, c => by
      by_cases h : d ∈ seen
      · rw [dedup_codes_go, if_pos h, dedup_codes_go_mem seen rest c]
        simp only [List.mem_cons]
        constructor
        · rintro ⟨hm, hs⟩; exact ⟨Or.inr hm, hs⟩
        · rintro ⟨hm | hm, hs⟩
          · exact absurd (hm ▸ h) hs
          · exact ⟨hm, hs⟩
      · rw [dedup_codes_go, if_neg h]
        simp only [List.mem_cons, dedup_codes_go_mem (d :: seen) rest c]
        constructor
        · rintro (rfl | ⟨hm, hs⟩)
          · exact ⟨Or.inl rfl, h⟩
          · exact ⟨Or.inr hm, fun hc => hs (Or.inr hc)⟩
        · rintro ⟨rfl | hm, hs⟩
          · exact Or.inl rfl
          · by_cases hcd : c = d
            · exact Or.inl hcd
            · refine Or.inr ⟨hm, fun hc => ?_⟩
              rcases hc with h1 | h1
              · exact hcd h1
              · exact hs h1

theorem dedup_codes_go_nodup : ∀ (seen cs : List String), (dedup_codes_go seen cs).Nodup
  | _, [] => List.nodup_nil
  | seen, c :: rest => by
      by_cases h : c ∈ seen
      · rw [dedup_codes_go, if_pos h]
        exact dedup_codes_go_nodup seen rest
      · rw [dedup_codes_go, if_neg h]
        refine List.Nodup.cons ?_ (dedup_codes_go_nodup (c :: seen) rest)
        intro hc
        exact ((dedup_codes_go_mem (c :: seen) rest c).mp hc).2 (List.mem_cons_self c seen)

/-! ### Claim theorems -/

/-- C9: `extend_forecast(series, k, none)` returns the input unchanged for
every series and every horizon, and `extend_forecast` on an empty input
series returns the input unchanged for every growth rate. -/
theorem extend_forecast_identity_cases :
    (∀ (df : List Row) (k : ℕ), extend_forecast df k none = df) ∧
    (∀ (k : ℕ) (rate : Option ℚ), extend_forecast [] k rate = []) := by
  constructor
  · intro df k; rfl
  · intro k rate
    cases rate with
    | none => rfl
    | some c => rfl

/-- C8: `format_magnitude` is a function of (value, unit) — determinism is
definitional — and satisfies `format_magnitude(2_500_000_000_000, "US$") =
"2.50T"`, `format_magnitude(None, "%") = "—"` (and `"—"` for a missing/NaN
value whatever the unit, both embedded as `none`), and
`format_magnitude(42.567, "%") = "42.57"`. -/
theorem format_val_spec :
    format_val (some 2500000000000) "US$" = "2.50T" ∧
    (∀ unit : String, format_val none unit = "—") ∧
    format_val (some (42567/1000)) "%" = "42.57" := by
  refine ⟨?_, fun _ => rfl, ?_⟩
  · have ha : |(|(2500000000000:ℚ)| / 10 ^ 12)| * 10 ^ 2 = 250 := by
      rw [abs_of_nonneg (by norm_num : (0:ℚ) ≤ 2500000000000)]
      rw [abs_of_nonneg (by norm_num : (0:ℚ) ≤ (2500000000000:ℚ)/10^12)]
      norm_num
    have h : roundHalfEven (|(|(2500000000000:ℚ)| / 10 ^ 12)| * 10 ^ 2) = 250 := by
      rw [ha]; norm_num [roundHalfEven]
    simp only [format_val, formatFixed, h]
    norm_num
    decide
  · have ha : |(42567/1000 : ℚ)| * 10 ^ 2 = 42567/10 := by
      rw [abs_of_nonneg (by norm_num : (0:ℚ) ≤ 42567/1000)]; norm_num
    have h : roundHalfEven (|(42567/1000 : ℚ)| * 10 ^ 2) = 4257 := by
      rw [ha]; norm_num [roundHalfEven]
    simp only [format_val, formatFixed, h]
    norm_num
    decide

/-- C3 counterexample: `wb_fetch_multi` itself does not collapse duplicate
country codes — on the input `["IND", "IND"]` it issues one fetch per list
element and concatenates both results, so its output differs from the
one-fetch-per-distinct-code output the claim describes. -/
theorem wb_fetch_multi_duplicates_counterexample :
    wb_fetch_multi (fun c => ([⟨c, c, "NY.GDP.MKTP.CD", 2020, some 1⟩] : List Row)) ["IND", "IND"] =
      [⟨"IND", "IND", "NY.GDP.MKTP.CD", 2020, some 1⟩,
       ⟨"IND", "IND", "NY.GDP.MKTP.CD", 2020, some 1⟩] ∧
    ((dedup_codes ["IND", "IND"]).map
        (fun c => ([⟨c, c, "NY.GDP.MKTP.CD", 2020, some 1⟩] : List Row))).flatten =
      [⟨"IND", "IND", "NY.GDP.MKTP.CD", 2020, some 1⟩] ∧
    wb_fetch_multi (fun c => ([⟨c, c, "NY.GDP.MKTP.CD", 2020, some 1⟩] : List Row)) ["IND", "IND"] ≠
      ((dedup_codes ["IND", "IND"]).map
        (fun c => ([⟨c, c, "NY.GDP.MKTP.CD", 2020, some 1⟩] : List Row))).flatten := by
  refine ⟨rfl, rfl, ?_⟩
  intro hcontra
  have hlen := congrArg List.length hcontra
  simp [wb_fetch_multi, dedup_codes, dedup_codes_go] at hlen

/-- C3 (amended): deduplication of the country list is performed by the
caller of `wb_fetch_multi` (src/app.py lines 350-354), not by
`wb_fetch_multi` itself; on the deduplicated list the aggregator issues
one fetch per distinct code, preserving the first-occurrence order of the
input, and concatenates the per-country results in that order. -/
theorem wb_fetch_multi_dedup_by_caller :
    ∀ (fetch : String → List Row) (countries : List String),
      wb_fetch_multi fetch (dedup_codes countries) =
        ((dedup_codes countries).map fetch).flatten ∧
      (dedup_codes countries).Nodup ∧
      (dedup_codes countries).Sublist countries ∧
      (∀ c, c ∈ dedup_codes countries ↔ c ∈ countries) := by
  intro fetch countries
  refine ⟨rfl, dedup_codes_go_nodup [] countries, dedup_codes_go_sublist [] countries,
    fun c => ?_⟩
  rw [dedup_codes, dedup_codes_go_mem]
  simp

theorem safe_request_go_attempted_bounds (call : ℕ → Except DataSourceError α) (backoff : ℚ) :
    ∀ (fuel i : ℕ) (last : Option DataSourceError),
      (∀ j ∈ (safe_request_go call backoff i last fuel).attempted, i ≤ j ∧ j < i + fuel) ∧
      (safe_request_go call backoff i last fuel).attempted.length ≤ fuel
  | 0, i, last => by simp [safe_request_go]
  | Nat.succ fuel, i, last => by
      cases hc : call i with
      | ok a =>
          simp only [safe_request_go, hc]
          constructor
          · intro j hj
            simp only [List.mem_singleton] at hj
            omega
          · simp
      | error e =>
          have ih := safe_request_go_attempted_bounds call backoff fuel (i + 1) (some e)
          simp only [safe_request_go, hc]
          constructor
          · intro j hj
            rcases List.mem_cons.mp hj with rfl | hj
            · omega
            · have := ih.1 j hj
              omega
          · simpa using Nat.succ_le_succ ih.2

/-- C2: with the default arguments (`retries = 3`, `backoff = 0.6 = 3/5`)
used at every call site, `_safe_request` attempts the injected HTTP call
at most 3 times (only attempt indices 0, 1, 2 can occur, so a 4th attempt
never happens); and when all three attempts fail it sleeps
`backoff * 2 ^ attempt` seconds after each failed attempt (in particular
before each of the two retries) and propagates the last error as the
`DataSourceError` outcome of the run. -/
theorem safe_request_retry_policy :
    ∀ {α : Type} (call : ℕ → Except DataSourceError α),
      ((safe_request call 3 (3/5)).attempted.length ≤ 3 ∧
        ∀ j ∈ (safe_request call 3 (3/5)).attempted, j < 3) ∧
      (∀ e0 e1 e2 : DataSourceError,
        call 0 = .error e0 → call 1 = .error e1 → call 2 = .error e2 →
        safe_request call 3 (3/5) =
          ⟨.error (some e2), [0, 1, 2], [3/5 * 2 ^ 0, 3/5 * 2 ^ 1, 3/5 * 2 ^ 2]⟩) := by
  intro α call
  constructor
  · have h := safe_request_go_attempted_bounds call (3/5) 3 0 none
    exact ⟨h.2, fun j hj => by have := h.1 j hj; omega⟩
  · intro e0 e1 e2 h0 h1 h2
    simp [safe_request, safe_request_go, h0, h1, h2]

/-- Witness for C2: a call that always fails with the same network error
exhausts exactly the attempts 0, 1, 2, sleeps 0.6·1, 0.6·2, 0.6·4 seconds,
and propagates that error. -/
theorem safe_request_retry_policy_witness :
    safe_request (fun _ => (.error ⟨"connection reset"⟩ : Except DataSourceError ℕ)) 3 (3/5) =
      ⟨.error (some ⟨"connection reset"⟩), [0, 1, 2], [3/5 * 2 ^ 0, 3/5 * 2 ^ 1, 3/5 * 2 ^ 2]⟩ :=
  (safe_request_retry_policy (fun _ => (.error ⟨"connection reset"⟩ : Except DataSourceError ℕ))).2
    ⟨"connection reset"⟩ ⟨"connection reset"⟩ ⟨"connection reset"⟩ rfl rfl rfl

/-- C7: a fetch whose first page reports `pages = 1` and carries 0 rows
returns the empty Series (`.ok (some [])`), and in particular is not a
`DataSourceError`: an empty result is a valid empty Series, distinct from
a fetch failure. -/
theorem wb_fetch_series_empty_ok :
    ∀ (respond : ℕ → Except DataSourceError (Option (ℕ × List RawRow))) (fuel : ℕ),
      respond 1 = .ok (some (1, [])) →
      wb_fetch_series respond (fuel + 1) = .ok (some ([] : List Row)) ∧
      ∀ e : DataSourceError, wb_fetch_series respond (fuel + 1) ≠ .error e := by
  intro respond fuel h
  have hrun : wb_fetch_series respond (fuel + 1) = .ok (some ([] : List Row)) := by
    simp [wb_fetch_series, wb_fetch_series_go, h, Except.map]
  refine ⟨hrun, fun e hcontra => ?_⟩
  rw [hrun] at hcontra
  exact Except.noConfusion hcontra

/-- Witness for C7: the concrete single-page, zero-row response yields the
empty Series. -/
theorem wb_fetch_series_empty_ok_witness :
    wb_fetch_series (fun _ => .ok (some (1, []))) 1 = .ok (some ([] : List Row)) :=
  (wb_fetch_series_empty_ok (fun _ => .ok (some (1, []))) 0 rfl).1

/-- C5: `yoy_change` returns `none` when fewer than 2 non-missing values
exist, or when the prior (second most recent non-missing) value is zero
(by the `math.isclose` note in the header, the float-tolerance guard of
line 129 collapses to exact zero); otherwise it returns
`(last - prev) / prev * 100` over the two most recent non-missing values.
On `[(2019,100),(2020,110),(2021,None),(2022,121)]` it yields exactly 10. -/
theorem yoy_change_spec :
    (∀ df : List Row, (cleanSeries df).length < 2 → yoy_change df = none) ∧
    (∀ df : List Row,
      ((cleanSeries df).getD ((cleanSeries df).length - 2) default).value.getD 0 = 0 →
      yoy_change df = none) ∧
    (∀ df : List Row, 2 ≤ (cleanSeries df).length →
      ((cleanSeries df).getD ((cleanSeries df).length - 2) default).value.getD 0 ≠ 0 →
      yoy_change df = some
        ((((cleanSeries df).getLastD default).value.getD 0 -
            ((cleanSeries df).getD ((cleanSeries df).length - 2) default).value.getD 0) /
          ((cleanSeries df).getD ((cleanSeries df).length - 2) default).value.getD 0 * 100)) ∧
    yoy_change
      [⟨"India", "IND", "FP.CPI.TOTL.ZG", 2019, some 100⟩,
       ⟨"India", "IND", "FP.CPI.TOTL.ZG", 2020, some 110⟩,
       ⟨"India", "IND", "FP.CPI.TOTL.ZG", 2021, none⟩,
       ⟨"India", "IND", "FP.CPI.TOTL.ZG", 2022, some 121⟩] = some 10 := by
  refine ⟨?_, ?_, ?_, ?_⟩
  · intro df h
    simp only [yoy_change]
    rw [if_pos h]
  · intro df h
    simp only [yoy_change]
    by_cases hl : (cleanSeries df).length < 2
    · rw [if_pos hl]
    · rw [if_neg hl, if_pos h]
  · intro df hl h
    simp only [yoy_change]
    rw [if_neg (by omega), if_neg h]
  · norm_num [yoy_change, cleanSeries, List.insertionSort, List.orderedInsert, dateLE]

/-- Witness for C5: a series whose prior value is exactly zero yields
`none`. -/
theorem yoy_change_spec_witness :
    yoy_change
      [⟨"India", "IND", "SL.UEM.TOTL.ZS", 2019, some 0⟩,
       ⟨"India", "IND", "SL.UEM.TOTL.ZS", 2020, some 5⟩] = none :=
  yoy_change_spec.2.1 _
    (by norm_num [cleanSeries, List.insertionSort, List.orderedInsert, dateLE])

/-- C4: `cagr(series, n)` windows the cleaned series to
`[last_year - n, last_year]` (that window is `cagrWindow`); it returns
`none` when the window holds fewer than 2 valid points, when the elapsed
year span between the first and last points actually present in the
window is ≤ 0, or when the starting value is zero (the float-tolerance
guard collapses to exact zero, see the header); otherwise it returns
`(end_value / start_value) ^ (1 / elapsed_years) - 1` computed from the
window's first and last points.  On `[(2018,100),(2023,150)]` with `n = 5`
the result lies strictly between 0.084 and 0.085 (≈ 0.0845). -/
theorem cagr_from_last_n_years_spec :
    (∀ (df : List Row) (n : ℤ), (cagrWindow df n).length < 2 →
      cagr_from_last_n_years df n = none) ∧
    (∀ (df : List Row) (n : ℤ),
      ((cagrWindow df n).getLastD default).date - (cagrWindow df n).headI.date ≤ 0 →
      cagr_from_last_n_years df n = none) ∧
    (∀ (df : List Row) (n : ℤ), (cagrWindow df n).headI.value.getD 0 = 0 →
      cagr_from_last_n_years df n = none) ∧
    (∀ (df : List Row) (n : ℤ), 2 ≤ (cagrWindow df n).length →
      0 < ((cagrWindow df n).getLastD default).date - (cagrWindow df n).headI.date →
      (cagrWindow df n).headI.value.getD 0 ≠ 0 →
      cagr_from_last_n_years df n = some
        (((((cagrWindow df n).getLastD default).value.getD 0 : ℝ) /
            ((cagrWindow df n).headI.value.getD 0 : ℝ)) ^
          ((1 : ℝ) /
            ((((cagrWindow df n).getLastD default).date - (cagrWindow df n).headI.date : ℤ) : ℝ)) -
          1)) ∧
    (∃ r : ℝ,
      cagr_from_last_n_years
        [⟨"India", "IND", "NY.GDP.MKTP.CD", 2018, some 100⟩,
         ⟨"India", "IND", "NY.GDP.MKTP.CD", 2023, some 150⟩] 5 = some r ∧
      84/1000 < r ∧ r < 85/1000) := by
  refine ⟨?_, ?_, ?_, ?_, ?_⟩
  · intro df n h
    simp only [cagr_from_last_n_years]
    rw [if_pos h]
  · intro df n h
    simp only [cagr_from_last_n_years]
    by_cases hl : (cagrWindow df n).length < 2
    · rw [if_pos hl]
    · rw [if_neg hl, if_pos (Or.inl h)]
  · intro df n h
    simp only [cagr_from_last_n_years]
    by_cases hl : (cagrWindow df n).length < 2
    · rw [if_pos hl]
    · rw [if_neg hl, if_pos (Or.inr h)]
  · intro df n hl hy hs
    simp only [cagr_from_last_n_years]
    rw [if_neg (by omega), if_neg (by push_neg; exact ⟨by omega, hs⟩)]
  · have hw : cagrWindow
        [⟨"India", "IND", "NY.GDP.MKTP.CD", 2018, some 100⟩,
         ⟨"India", "IND", "NY.GDP.MKTP.CD", 2023, some 150⟩] 5 =
        [⟨"India", "IND", "NY.GDP.MKTP.CD", 2018, some 100⟩,
         ⟨"India", "IND", "NY.GDP.MKTP.CD", 2023, some 150⟩] := by
      norm_num [cagrWindow, cleanSeries, List.insertionSort, List.orderedInsert, dateLE]
    have hval : cagr_from_last_n_years
        [⟨"India", "IND", "NY.GDP.MKTP.CD", 2018, some 100⟩,
         ⟨"India", "IND", "NY.GDP.MKTP.CD", 2023, some 150⟩] 5 =
        some ((3/2 : ℝ) ^ ((1 : ℝ)/5) - 1) := by
      simp only [cagr_from_last_n_years, hw]
      norm_num
    refine ⟨(3/2 : ℝ) ^ ((1 : ℝ)/5) - 1, hval, ?_, ?_⟩
    all_goals {
      have hx5 : ((3/2 : ℝ) ^ ((1 : ℝ)/5)) ^ (5 : ℕ) = 3/2 := by
        rw [← Real.rpow_natCast ((3/2 : ℝ) ^ ((1 : ℝ)/5)) 5,
          ← Real.rpow_mul (by norm_num : (0:ℝ) ≤ 3/2)]
        norm_num
      have hxpos : (0:ℝ) ≤ (3/2 : ℝ) ^ ((1 : ℝ)/5) :=
        Real.rpow_nonneg (by norm_num) _
      have hlow : (1084/1000 : ℝ) < (3/2 : ℝ) ^ ((1 : ℝ)/5) := by
        apply lt_of_pow_lt_pow_left₀ 5 hxpos
        rw [hx5]
        norm_num
      have hhigh : (3/2 : ℝ) ^ ((1 : ℝ)/5) < 1085/1000 := by
        apply lt_of_pow_lt_pow_left₀ 5 (by norm_num : (0:ℝ) ≤ 1085/1000)
        rw [hx5]
        norm_num
      linarith
    }

/-- Witness for C4: the one-point series has a CAGR window with a single
row, hence `cagr` is `none`. -/
theorem cagr_from_last_n_years_spec_witness :
    cagr_from_last_n_years [⟨"India", "IND", "SP.POP.TOTL", 2020, some 7⟩] 5 = none :=
  cagr_from_last_n_years_spec.1 _ 5
    (by norm_num [cagrWindow, cleanSeries, List.insertionSort, List.orderedInsert, dateLE])

/-- C1 counterexample: on a non-empty input with a non-`none` growth rate
but whose only rows at/after the last year are missing, `extend_forecast`
drops the missing-value row and anchors at the last *valid* row, so the
output is not the input table with `k` points appended: here the input has
2 rows and `k = 1`, but the output also has 2 rows (the NaN row is gone
and one forecast row is added). -/
theorem extend_forecast_input_counterexample :
    extend_forecast
        [⟨"India", "IND", "NY.GDP.MKTP.CD", 2020, none⟩,
         ⟨"India", "IND", "NY.GDP.MKTP.CD", 2019, some 100⟩] 1 (some 0) =
      [⟨"India", "IND", "NY.GDP.MKTP.CD", 2019, some 100⟩,
       ⟨"India", "IND", "NY.GDP.MKTP.CD", 2020, some 100⟩] ∧
    ([⟨"India", "IND", "NY.GDP.MKTP.CD", 2020, none⟩,
      ⟨"India", "IND", "NY.GDP.MKTP.CD", 2019, some 100⟩] : List Row) ≠ [] ∧
    (extend_forecast
        [⟨"India", "IND", "NY.GDP.MKTP.CD", 2020, none⟩,
         ⟨"India", "IND", "NY.GDP.MKTP.CD", 2019, some 100⟩] 1 (some 0)).length ≠
      ([⟨"India", "IND", "NY.GDP.MKTP.CD", 2020, none⟩,
        ⟨"India", "IND", "NY.GDP.MKTP.CD", 2019, some 100⟩] : List Row).length + 1 := by
  refine ⟨?_, by simp, ?_⟩
  · norm_num [extend_forecast, cleanSeries, List.insertionSort, List.orderedInsert, dateLE,
      loopRows]
  · norm_num [extend_forecast, cleanSeries, List.insertionSort, List.orderedInsert, dateLE,
      loopRows]

/-- C1 (amended): whenever the input series has at least one valid
(non-missing) row and the growth rate is not `none`, `extend_forecast`
returns the *cleaned* input (missing-value rows dropped, stably sorted by
year) with exactly `k` new points appended; the new points' years are the
consecutive integers following the last valid input year, and each new
point's value is exactly `(1 + rate)` times the previous point's value
(the anchor value for the first new point).  For an input that is already
sorted and free of missing values the cleaned input is the input itself.
Inputs with no valid rows are returned unchanged with nothing appended
(see the counterexample). -/
theorem extend_forecast_appends (df : List Row) (k : ℕ) (c : ℚ)
    (h : cleanSeries df ≠ []) :
    (extend_forecast df k (some c)).length = (cleanSeries df).length + k ∧
    (extend_forecast df k (some c)).take (cleanSeries df).length = cleanSeries df ∧
    (∀ i : ℕ, i < k →
      ((extend_forecast df k (some c)).getD ((cleanSeries df).length + i) default).date =
          ((cleanSeries df).getLastD default).date + (i + 1 : ℕ) ∧
      ((extend_forecast df k (some c)).getD ((cleanSeries df).length + i) default).value =
          some ((((cleanSeries df).getLastD default).value.getD 0) * (1 + c) ^ (i + 1)) ∧
      ((extend_forecast df k (some c)).getD ((cleanSeries df).length + i) default).value.getD 0 =
          (1 + c) *
            (((extend_forecast df k (some c)).getD
                ((cleanSeries df).length + i - 1) default).value.getD 0)) := by
  have hdf : df.isEmpty = false := by
    rcases df with _ | ⟨a, t⟩
    · exact absurd rfl h
    · rfl
  have hclean : (cleanSeries df).isEmpty = false := by
    simpa [List.isEmpty_iff] using h
  have hm : 1 ≤ (cleanSeries df).length := by
    rcases hcl : cleanSeries df with _ | ⟨a, t⟩
    · exact absurd hcl h
    · simp
  cases k with
  | zero =>
      have hout : extend_forecast df 0 (some c) = cleanSeries df := by
        simp [extend_forecast, hdf, hclean, loopRows]
      refine ⟨by rw [hout]; omega, by rw [hout, List.take_length], fun i hi => absurd hi (by omega)⟩
  | succ k' =>
      have haddne : (loopRows ((cleanSeries df).getLastD default) c
          ((cleanSeries df).getLastD default).date
          (((cleanSeries df).getLastD default).value.getD 0) (k' + 1)).isEmpty = false := rfl
      have hout : extend_forecast df (k' + 1) (some c) =
          cleanSeries df ++ loopRows ((cleanSeries df).getLastD default) c
            ((cleanSeries df).getLastD default).date
            (((cleanSeries df).getLastD default).value.getD 0) (k' + 1) := by
        simp only [extend_forecast, hdf, hclean, haddne, Bool.false_eq_true, if_false]
      have hlen := loopRows_length ((cleanSeries df).getLastD default) c (k' + 1)
        ((cleanSeries df).getLastD default).date
        (((cleanSeries df).getLastD default).value.getD 0)
      refine ⟨?_, ?_, ?_⟩
      · rw [hout, List.length_append, hlen]
      · rw [hout, List.take_left]
      · intro i hi
        have hgi : (extend_forecast df (k' + 1) (some c)).getD
            ((cleanSeries df).length + i) default =
            { (cleanSeries df).getLastD default with
              date := ((cleanSeries df).getLastD default).date + (i + 1 : ℕ),
              value := some ((((cleanSeries df).getLastD default).value.getD 0) *
                (1 + c) ^ (i + 1)) } := by
          rw [hout, List.getD_append_right _ _ _ _ (Nat.le_add_right _ _),
            Nat.add_sub_cancel_left]
          exact loopRows_getD _ c (k' + 1) _ _ i hi
        refine ⟨by rw [hgi], by rw [hgi], ?_⟩
        cases i with
        | zero =>
            have hidx0 : (cleanSeries df).length + 0 - 1 = (cleanSeries df).length - 1 := by
              omega
            have hprev : (extend_forecast df (k' + 1) (some c)).getD
                ((cleanSeries df).length - 1) default =
                (cleanSeries df).getLastD default := by
              rw [hout,
                List.getD_append _ _ _ _ (by omega : (cleanSeries df).length - 1 <
                  (cleanSeries df).length)]
              exact getD_length_sub_one (cleanSeries df) h
            rw [hgi, hidx0, hprev]
            simp only [Option.getD_some]
            ring
        | succ j =>
            have hprev : (extend_forecast df (k' + 1) (some c)).getD
                ((cleanSeries df).length + (j + 1) - 1) default =
                { (cleanSeries df).getLastD default with
                  date := ((cleanSeries df).getLastD default).date + (j + 1 : ℕ),
                  value := some ((((cleanSeries df).getLastD default).value.getD 0) *
                    (1 + c) ^ (j + 1)) } := by
              have hidx : (cleanSeries df).length + (j + 1) - 1 =
                  (cleanSeries df).length + j := by omega
              rw [hout, hidx, List.getD_append_right _ _ _ _ (Nat.le_add_right _ _),
                Nat.add_sub_cancel_left]
              exact loopRows_getD _ c (k' + 1) _ _ j (by omega)
            rw [hgi, hprev]
            simp only [Option.getD_some]
            ring

/-- Witness for C1 (amended): a concrete one-row series extended by two
years at 10% growth gains exactly two rows. -/
theorem extend_forecast_appends_witness :
    cleanSeries [⟨"India", "IND", "NY.GDP.PCAP.CD", 2019, some 100⟩] ≠ [] ∧
    (extend_forecast [⟨"India", "IND", "NY.GDP.PCAP.CD", 2019, some 100⟩] 2
        (some (1/10))).length =
      (cleanSeries [⟨"India", "IND", "NY.GDP.PCAP.CD", 2019, some 100⟩]).length + 2 :=
  ⟨by norm_num [cleanSeries, List.insertionSort, List.orderedInsert, dateLE],
    (extend_forecast_appends [⟨"India", "IND", "NY.GDP.PCAP.CD", 2019, some 100⟩] 2 (1/10)
      (by norm_num [cleanSeries, List.insertionSort, List.orderedInsert, dateLE])).1⟩

theorem peer_median_unfold (df : List Row)
    (h : (df.filter fun r => r.value.isSome) ≠ []) :
    peer_median_series df =
      some ((List.insertionSort (· ≤ ·)
          ((df.filter fun r => r.value.isSome).map Row.date).dedup).map
        fun y => ⟨"Peer median", y,
          medianQ (((df.filter fun r => r.value.isSome).filter fun r =>
            decide (r.date = y)).map fun r => r.value.getD 0)⟩) := by
  simp only [peer_median_series]
  rw [if_neg (by simpa [List.isEmpty_iff] using h)]

/-- C6: `peer_median_series` is invariant under any permutation of the
peer table's rows (hence of the peer country blocks); it returns `none`
exactly when the peer table has no valid (non-missing) values; and a year
carried by exactly one valid peer row contributes that row's value as the
year's median. -/
theorem peer_median_series_spec :
    (∀ df₁ df₂ : List Row, df₁.Perm df₂ →
      peer_median_series df₁ = peer_median_series df₂) ∧
    (∀ df : List Row,
      peer_median_series df = none ↔ (df.filter fun r => r.value.isSome) = []) ∧
    (∀ (df : List Row) (y : ℤ) (r : Row),
      ((df.filter fun s => s.value.isSome).filter fun s => decide (s.date = y)) = [r] →
      ∃ out, peer_median_series df = some out ∧
        (⟨"Peer median", y, r.value.getD 0⟩ : MedRow) ∈ out) := by
  refine ⟨?_, ?_, ?_⟩
  · intro df₁ df₂ hp
    have hcl : (df₁.filter fun r => r.value.isSome).Perm
        (df₂.filter fun r => r.value.isSome) := hp.filter _
    by_cases h1 : (df₁.filter fun r => r.value.isSome) = []
    · have h2 : (df₂.filter fun r => r.value.isSome) = [] := ((h1 ▸ hcl).nil_eq).symm
      simp only [peer_median_series]
      rw [if_pos (by simp [h1]), if_pos (by simp [h2])]
    · have h2 : (df₂.filter fun r => r.value.isSome) ≠ [] := by
        intro hh
        exact h1 (hcl.trans (hh ▸ List.Perm.refl _)).eq_nil
      rw [peer_median_unfold df₁ h1, peer_median_unfold df₂ h2]
      have hyears : List.insertionSort (· ≤ ·)
          ((df₁.filter fun r => r.value.isSome).map Row.date).dedup =
          List.insertionSort (· ≤ ·)
          ((df₂.filter fun r => r.value.isSome).map Row.date).dedup :=
        insertionSortZ_eq_of_perm ((hcl.map Row.date).dedup)
      rw [hyears]
      congr 1
      refine List.map_eq_map_iff.mpr fun y hy => ?_
      exact congrArg (fun m => (⟨"Peer median", y, m⟩ : MedRow))
        (medianQ_perm ((hcl.filter _).map _))
  · intro df
    constructor
    · intro hnone
      by_contra hne
      rw [peer_median_unfold df hne] at hnone
      exact Option.noConfusion hnone
    · intro hempty
      simp only [peer_median_series]
      rw [if_pos (by simp [hempty])]
  · intro df y r hfil
    have hmemf : r ∈ (df.filter fun s => s.value.isSome).filter
        fun s => decide (s.date = y) := by
      rw [hfil]; exact List.mem_singleton_self r
    have hrmem : r ∈ df.filter fun s => s.value.isSome := List.mem_of_mem_filter hmemf
    have hrdate : r.date = y := by simpa using List.of_mem_filter hmemf
    have hne : (df.filter fun s => s.value.isSome) ≠ [] := by
      intro hh
      rw [hh] at hrmem
      simp at hrmem
    refine ⟨_, peer_median_unfold df hne, ?_⟩
    have hymem : y ∈ List.insertionSort (· ≤ ·)
        ((df.filter fun s => s.value.isSome).map Row.date).dedup := by
      rw [List.mem_insertionSort, List.mem_dedup]
      exact hrdate ▸ List.mem_map_of_mem Row.date hrmem
    have hmed : medianQ (((df.filter fun s => s.value.isSome).filter fun s =>
        decide (s.date = y)).map fun s => s.value.getD 0) = r.value.getD 0 := by
      rw [hfil]
      simp [medianQ, List.insertionSort, List.orderedInsert]
    rw [← hmed]
    exact List.mem_map_of_mem _ hymem

/-- Witness for C6: a peer table with a single valid row at year 2020
yields that row's value as the 2020 median. -/
theorem peer_median_series_spec_witness :
    ∃ out, peer_median_series [⟨"China", "CHN", "SP.DYN.LE00.IN", 2020, some 77⟩] = some out ∧
      (⟨"Peer median", 2020, 77⟩ : MedRow) ∈ out :=
  peer_median_series_spec.2.2 _ 2020 ⟨"China", "CHN", "SP.DYN.LE00.IN", 2020, some 77⟩
    (by simp)

/-- C10 counterexample: permutation invariance fails when two valid rows
share the same year.  `sort_values("date")` keeps tied rows in input
order, so with two rows both dated 2020 the roles of "last" and "prev"
swap under the permutation and `yoy_change` changes from +10% to
-100/11 %. -/
theorem yoy_change_perm_counterexample :
    ([⟨"India", "IND", "FP.CPI.TOTL.ZG", 2020, some 100⟩,
      ⟨"India", "IND", "FP.CPI.TOTL.ZG", 2020, some 110⟩] : List Row).Perm
      [⟨"India", "IND", "FP.CPI.TOTL.ZG", 2020, some 110⟩,
       ⟨"India", "IND", "FP.CPI.TOTL.ZG", 2020, some 100⟩] ∧
    yoy_change
      [⟨"India", "IND", "FP.CPI.TOTL.ZG", 2020, some 100⟩,
       ⟨"India", "IND", "FP.CPI.TOTL.ZG", 2020, some 110⟩] = some 10 ∧
    yoy_change
      [⟨"India", "IND", "FP.CPI.TOTL.ZG", 2020, some 110⟩,
       ⟨"India", "IND", "FP.CPI.TOTL.ZG", 2020, some 100⟩] = some (-100/11) ∧
    yoy_change
      [⟨"India", "IND", "FP.CPI.TOTL.ZG", 2020, some 100⟩,
       ⟨"India", "IND", "FP.CPI.TOTL.ZG", 2020, some 110⟩] ≠
    yoy_change
      [⟨"India", "IND", "FP.CPI.TOTL.ZG", 2020, some 110⟩,
       ⟨"India", "IND", "FP.CPI.TOTL.ZG", 2020, some 100⟩] := by
  refine ⟨List.Perm.swap _ _ _, ?_, ?_, ?_⟩
  · norm_num [yoy_change, cleanSeries, List.insertionSort, List.orderedInsert, dateLE]
  · norm_num [yoy_change, cleanSeries, List.insertionSort, List.orderedInsert, dateLE]
  · norm_num [yoy_change, cleanSeries, List.insertionSort, List.orderedInsert, dateLE]

/-- C10 (amended): `latest_non_null`, `yoy_change` and
`cagr_from_last_n_years` each internally drop missing values and sort by
year, so they need no pre-filtered or pre-sorted input; and whenever the
valid (non-missing) rows carry pairwise distinct years, the results are
identical under every permutation of the input rows (including missing
rows interleaved anywhere).  With duplicate years among the valid rows
the tie-broken row order can change the result (see the counterexample). -/
theorem metrics_perm_invariant (df₁ df₂ : List Row) (hp : df₁.Perm df₂)
    (hn : ((df₁.filter fun r => r.value.isSome).map Row.date).Nodup) :
    latest_non_null df₁ = latest_non_null df₂ ∧
    yoy_change df₁ = yoy_change df₂ ∧
    ∀ n : ℤ, cagr_from_last_n_years df₁ n = cagr_from_last_n_years df₂ n := by
  have hc : cleanSeries df₁ = cleanSeries df₂ := cleanSeries_eq_of_perm hp hn
  refine ⟨?_, ?_, ?_⟩
  · simp only [latest_non_null, hc]
  · simp only [yoy_change, hc]
  · intro n
    simp only [cagr_from_last_n_years, cagrWindow, hc]

/-- Witness for C10 (amended): a two-row series with distinct years, with
a missing-value row interleaved, gives identical metrics after reversing
the rows. -/
theorem metrics_perm_invariant_witness :
    latest_non_null
        [⟨"India", "IND", "SP.POP.TOTL", 2019, some 100⟩,
         ⟨"India", "IND", "SP.POP.TOTL", 2020, some 110⟩] =
      latest_non_null
        [⟨"India", "IND", "SP.POP.TOTL", 2020, some 110⟩,
         ⟨"India", "IND", "SP.POP.TOTL", 2019, some 100⟩] ∧
    yoy_change
        [⟨"India", "IND", "SP.POP.TOTL", 2019, some 100⟩,
         ⟨"India", "IND", "SP.POP.TOTL", 2020, some 110⟩] =
      yoy_change
        [⟨"India", "IND", "SP.POP.TOTL", 2020, some 110⟩,
         ⟨"India", "IND", "SP.POP.TOTL", 2019, some 100⟩] ∧
    ∀ n : ℤ,
      cagr_from_last_n_years
          [⟨"India", "IND", "SP.POP.TOTL", 2019, some 100⟩,
           ⟨"India", "IND", "SP.POP.TOTL", 2020, some 110⟩] n =
        cagr_from_last_n_years
          [⟨"India", "IND", "SP.POP.TOTL", 2020, some 110⟩,
           ⟨"India", "IND", "SP.POP.TOTL", 2019, some 100⟩] n :=
  metrics_perm_invariant _ _ (List.Perm.swap _ _ _) (by simp)
